import Mathlib

/-!
# Verification of the xv6-annotated process/scheduling core

Shallow embedding of the process table, sleep/wakeup rendezvous, process
lifecycle operations (fork, exit, wait, kill) and the trap dispatcher from
`kernel/proc.c`, `kernel/trap.c` and `kernel/sysproc.c`, together with
theorems settling the specification claims about them.

Modelling conventions:
* C pointers that act as identities are modelled as indices or as the
  `Chan` type below; a null pointer is `Option.none`.
* The process table `struct { spinlock lock; proc proc[NPROC]; } ptable`
  is a `List Proc`; `NPROC` is the list length (its concrete value comes
  from `param.h`, which only fixes the capacity and is irrelevant to the
  claims).  Lock acquire/release pairs around table mutations serialize
  the mutation; each locked critical section is modelled as one atomic
  function on the table.
* Machine integers: `pid` is a C `int` (modelled as `Int`; no overflow is
  exercised by the claims), sizes and addresses are `Nat`.
-/

set_option autoImplicit false

namespace Xv6

/-- `enum procstate` from `proc.h`. -/
inductive ProcState
  | UNUSED | EMBRYO | SLEEPING | RUNNABLE | RUNNING | ZOMBIE
deriving DecidableEq, Repr, Inhabited

/-- A sleep/wakeup channel value (`void *chan`).  xv6 uses raw kernel
addresses; the addresses actually used by the code in scope are the
address of a process-table entry (`sleep(curproc, ...)` in `wait`,
`wakeup1(curproc->parent)` in `exit`), the address of the tick counter
(`sleep(&ticks, ...)`, `wakeup(&ticks)`), and other device addresses.
A null channel pointer is represented as `Option.none` at use sites. -/
inductive Chan
  | procAddr (i : Nat)   -- address of process-table slot i
  | ticksAddr            -- address of the `ticks` counter
  | other (a : Nat)      -- any other kernel address
deriving DecidableEq, Repr, Inhabited

/-- `struct context` from `proc.h`: callee-saved registers for `swtch`. -/
structure Context where
  edi : Nat
  esi : Nat
  ebx : Nat
  ebp : Nat
  eip : Nat
deriving DecidableEq, Repr, Inhabited

/-- `struct trapframe` (layout fixed by `alltraps` in trapasm.S and the
x86 exception convention; the fields are the ones the kernel code in
scope reads or writes). -/
structure TrapFrame where
  edi : Nat
  esi : Nat
  ebp : Nat
  oesp : Nat
  ebx : Nat
  edx : Nat
  ecx : Nat
  eax : Nat
  gs : Nat
  fs : Nat
  es : Nat
  ds : Nat
  trapno : Nat
  err : Nat
  eip : Nat
  cs : Nat
  eflags : Nat
  esp : Nat
  ss : Nat
deriving DecidableEq, Repr, Inhabited

/-- `struct proc` from `proc.h`.  Pointer-valued fields (`pgdir`,
`kstack`, `parent`, `chan`) become `Option` values; `tf` and `context`
are stored by value (the C code stores pointers into the kernel stack,
and the claims are about the pointed-to contents). -/
structure Proc where
  sz : Nat                      -- Size of process memory (bytes)
  pgdir : Option Nat            -- Page table (opaque handle; none = null)
  kstack : Option Nat           -- Kernel stack page (opaque handle; none = null)
  state : ProcState             -- Process state
  pid : Int                     -- Process ID
  parent : Option Nat           -- Parent process (index into the table)
  tf : TrapFrame                -- Trap frame contents
  context : Context             -- Saved context contents
  chan : Option Chan            -- If non-null, sleeping on chan
  killed : Bool                 -- If non-zero, has been killed
  ofile : List (Option Nat)     -- Open files (opaque handles)
  cwd : Option Nat              -- Current directory (opaque handle)
  name : String                 -- Process name (debugging)
deriving DecidableEq, Repr, Inhabited

/-- Read slot `i` of the process table, `ptable.proc[i]`.  Out-of-range
reads never occur in the code (`p < &ptable.proc[NPROC]` bounds every
scan); they return the default record here. -/
def getP : List Proc → Nat → Proc
  | [], _ => default
  | p :: _, 0 => p
  | _ :: rest, n + 1 => getP rest n

/-! ## sleep / wakeup (`proc.c`) -/

/-- The body of the `wakeup1` scan for one table entry
(`proc.c:617-619`): a process `SLEEPING` on exactly the given channel
becomes `RUNNABLE`; every other process is untouched. -/
def wakeupMatch (c : Option Chan) (p : Proc) : Proc :=
  if p.state = ProcState.SLEEPING ∧ p.chan = c then
    { p with state := ProcState.RUNNABLE }
  else p

/-- `wakeup1(chan)` (`proc.c:612-620`): wake all processes sleeping on
`chan`.  Caller holds `ptable.lock`. -/
def wakeup1 (c : Option Chan) (t : List Proc) : List Proc :=
  t.map (wakeupMatch c)

/-- `wakeup(chan)` (`proc.c:622-629`): acquire `ptable.lock`, `wakeup1`,
release.  The locked section is the single atomic table update below. -/
def wakeup (c : Chan) (t : List Proc) : List Proc :=
  wakeup1 (some c) t

/-- The lock argument passed to `sleep`: either `&ptable.lock` itself or
some other (device/subsystem) spinlock, identified by a number. -/
inductive LockArg
  | ptableLock
  | other (id : Nat)
deriving DecidableEq, Repr

/-- Lock/context-switch events emitted by `sleep`, in program order. -/
inductive SleepEv1
  | acq (l : LockArg)   -- acquire(l)
  | rel (l : LockArg)   -- release(l)
  | sw                  -- sched(): context switch into the scheduler
deriving DecidableEq, Repr

/-- Result of running `sleep`.  `ran events atSched onReturn`: `events`
is the sequence of lock operations and the scheduler switch in program
order; `atSched` is the caller's table record at the moment `sched()`
is entered; `onReturn` is the record when `sleep` returns. -/
inductive SleepRes
  | panicked
  | ran (events : List SleepEv1) (atSched : Proc) (onReturn : Proc)
deriving DecidableEq, Repr

/-- `sleep(chan, lk)` (`proc.c:557-601`).  `pr` is `myproc()` (`none`
when the CPU is in the scheduler), `lk` is the guard lock (`none` for a
null pointer), `c` the channel.  `resumed` is the caller's table record
at the moment the scheduler switches back into it (its state was made
RUNNABLE by `wakeup`/`kill` and RUNNING by the scheduler in between;
`sleep` itself writes only `chan` after resuming). -/
def sleepRun (pr : Option Proc) (lk : Option LockArg) (c : Chan)
    (resumed : Proc) : SleepRes :=
  match pr with
  | none => SleepRes.panicked            -- panic("sleep")
  | some p =>
    match lk with
    | none => SleepRes.panicked          -- panic("sleep without lk")
    | some l =>
      -- if(lk != &ptable.lock){ acquire(&ptable.lock); release(lk); }
      let pre : List SleepEv1 :=
        if l = LockArg.ptableLock then []
        else [SleepEv1.acq LockArg.ptableLock, SleepEv1.rel l]
      -- p->chan = chan; p->state = SLEEPING; sched();
      let atSched := { p with chan := some c, state := ProcState.SLEEPING }
      -- p->chan = 0;
      -- if(lk != &ptable.lock){ release(&ptable.lock); acquire(lk); }
      let post : List SleepEv1 :=
        if l = LockArg.ptableLock then []
        else [SleepEv1.rel LockArg.ptableLock, SleepEv1.acq l]
      SleepRes.ran (pre ++ [SleepEv1.sw] ++ post) atSched
        { resumed with chan := none }

/-! ## allocproc / fork (`proc.c`) -/

/-- The process table plus the `nextpid` counter (`proc.c:11-19`). -/
structure Ptable where
  procs : List Proc
  nextpid : Int
deriving DecidableEq, Repr

/-- Abstract code address of `forkret`, installed as the initial `%eip`
of a fresh process context by `allocproc` (`proc.c:144`). -/
def forkretEip : Nat := 1

/-- The `allocproc` scan (`proc.c:90-92`): index of the first `UNUSED`
slot in table order, if any. -/
def firstUnused : List Proc → Option Nat
  | [] => none
  | p :: rest =>
    if p.state = ProcState.UNUSED then some 0
    else (firstUnused rest).map (· + 1)

/-- `allocproc()` (`proc.c:81-147`).  `kallocRes` is the collaborator
result of `kalloc()` (`none` = out of memory).  Returns the index of the
claimed slot (or `none`, as the C code returns 0) and the updated table.
The stack-layout arithmetic (placing `tf`, the `trapret` return address
and the context on the new kernel stack) is pointer construction; its
observable effect modelled here is `kstack` being set and the fresh
context contents (zeroed, `eip = forkret`). -/
def allocproc (pt : Ptable) (kallocRes : Option Nat) : Option Nat × Ptable :=
  match firstUnused pt.procs with
  | none => (none, pt)                      -- no UNUSED slot: return 0
  | some i =>
    -- p->state = EMBRYO; p->pid = nextpid++;
    let p0 := getP pt.procs i
    let p1 := { p0 with state := ProcState.EMBRYO, pid := pt.nextpid }
    let np := pt.nextpid + 1
    match kallocRes with
    | none =>
      -- if((p->kstack = kalloc()) == 0){ p->state = UNUSED; return 0; }
      (none, { procs := pt.procs.set i { p1 with kstack := none, state := ProcState.UNUSED },
               nextpid := np })
    | some k =>
      let p2 := { p1 with
        kstack := some k
        context := { edi := 0, esi := 0, ebx := 0, ebp := 0, eip := forkretEip } }
      (some i, { procs := pt.procs.set i p2, nextpid := np })

/-- `fork()` (`proc.c:217-267`).  `curIdx` is the caller's slot
(`myproc()`); `kallocRes` and `copyRes` are the collaborator results of
`kalloc()` and `copyuvm(curproc->pgdir, curproc->sz)` (`none` =
failure).  Returns the C return value and the updated table. -/
def fork (pt : Ptable) (curIdx : Nat) (kallocRes copyRes : Option Nat) :
    Int × Ptable :=
  match allocproc pt kallocRes with
  | (none, pt1) => (-1, pt1)                -- if((np = allocproc()) == 0) return -1;
  | (some i, pt1) =>
    match copyRes with
    | none =>
      -- np->pgdir = 0; kfree(np->kstack); np->kstack = 0;
      -- np->state = UNUSED; return -1;
      let np0 := getP pt1.procs i
      let np1 := { np0 with pgdir := none, kstack := none, state := ProcState.UNUSED }
      (-1, { pt1 with procs := pt1.procs.set i np1 })
    | some g =>
      let cur := getP pt1.procs curIdx
      let np0 := getP pt1.procs i
      -- np->pgdir = copyuvm(..); np->sz = curproc->sz; np->parent = curproc;
      -- *np->tf = *curproc->tf; np->tf->eax = 0; ofile/cwd/name copies;
      -- pid = np->pid; np->state = RUNNABLE; return pid;
      let child := { np0 with
        pgdir := some g, sz := cur.sz, parent := some curIdx,
        tf := { cur.tf with eax := 0 },
        ofile := cur.ofile, cwd := cur.cwd, name := cur.name,
        state := ProcState.RUNNABLE }
      (np0.pid, { pt1 with procs := pt1.procs.set i child })

/-! ## wait (`proc.c`) -/

/-- The `wait` scan (`proc.c:328-345`): index of the first slot whose
parent is the caller and whose state is `ZOMBIE`. -/
def firstZombieChild (cur : Nat) : List Proc → Option Nat
  | [] => none
  | p :: rest =>
    if p.parent = some cur ∧ p.state = ProcState.ZOMBIE then some 0
    else (firstZombieChild cur rest).map (· + 1)

/-- `havekids` (`proc.c:327-331`): does any slot have the caller as
parent? -/
def hasKids (t : List Proc) (cur : Nat) : Bool :=
  t.any fun p => decide (p.parent = some cur)

/-- Outcome of one iteration of the `wait()` loop.  `reaped pid fs fp`
returns `pid` after `kfree`-ing kernel stack `fs` and `freevm`-ing page
directory `fp`; `fail` returns `-1`; `sleeps` calls
`sleep(curproc, &ptable.lock)` and rescans on wakeup. -/
inductive WaitRes
  | reaped (pid : Int) (freedStack : Option Nat) (freedPgdir : Option Nat)
  | fail
  | sleeps
deriving DecidableEq, Repr

/-- One iteration of the `for(;;)` loop in `wait()` (`proc.c:317-357`),
performed with `ptable.lock` held: scan for a `ZOMBIE` child and reap
it (release its kernel stack and address space, reset `kstack`, `pid`,
`parent`, `name`, `killed`, set `UNUSED`, return its pid); otherwise
return `-1` if the caller has no children or is killed; otherwise sleep
on the caller's own address and rescan.  `wait()` itself repeats this
body each time the sleep is woken. -/
def wait1 (t : List Proc) (cur : Nat) : WaitRes × List Proc :=
  match firstZombieChild cur t with
  | some i =>
    let p := getP t i
    let p1 := { p with
      kstack := none, pid := 0, parent := none,
      name := "", killed := false, state := ProcState.UNUSED }
    (WaitRes.reaped p.pid p.kstack p.pgdir, t.set i p1)
  | none =>
    -- if(!havekids || curproc->killed){ return -1; }
    if !hasKids t cur || (getP t cur).killed then (WaitRes.fail, t)
    else (WaitRes.sleeps, t)

/-! ## exit (`proc.c`) -/

/-- One step of the abandoned-children pass in `exit()`
(`proc.c:301-307`) at table index `i`:
`if(p->parent == curproc){ p->parent = initproc;
  if(p->state == ZOMBIE) wakeup1(initproc); }`. -/
def reparentStep (cur initIdx i : Nat) (t : List Proc) : List Proc :=
  if (getP t i).parent = some cur then
    if (getP t i).state = ProcState.ZOMBIE then
      wakeup1 (some (Chan.procAddr initIdx))
        (t.set i { getP t i with parent := some initIdx })
    else t.set i { getP t i with parent := some initIdx }
  else t

/-- The abandoned-children `for` loop of `exit()` over the given slot
indices. -/
def reparentGo (cur initIdx : Nat) : List Nat → List Proc → List Proc
  | [], t => t
  | i :: is, t => reparentGo cur initIdx is (reparentStep cur initIdx i t)

/-- Result of `exit()`: it either panics (`init` exiting) or context
switches away permanently with the table in the given final state; the
function has no normal-return outcome (after `sched()` the code is
unreachable: `panic("zombie exit")`). -/
inductive ExitRes
  | panicked
  | switchedAway (t : List Proc)
deriving DecidableEq, Repr

/-- The pre-lock phase of `exit()` (`proc.c:283-293`): close the open
files and release the working directory of the caller.  The collaborator
calls (`fileclose`, `iput`) do reference counting outside the table; the
observable table effect is `ofile[fd] = 0` for every fd and `cwd = 0`. -/
def exitPre (t : List Proc) (cur : Nat) : List Proc :=
  t.set cur { getP t cur with
    ofile := (getP t cur).ofile.map (fun _ => none), cwd := none }

/-- The table state produced by `exit()` at the moment it switches into
the scheduler (`proc.c:295-311`): after closing files, with
`ptable.lock` held, wake the parent (`wakeup1(curproc->parent)`), run
the abandoned-children pass, and set the caller `ZOMBIE`. -/
def exitBody (t : List Proc) (cur initIdx : Nat) : List Proc :=
  let t1 := exitPre t cur
  -- wakeup1(curproc->parent);
  let t2 := wakeup1 ((getP t1 cur).parent.map Chan.procAddr) t1
  let t3 := reparentGo cur initIdx (List.range t2.length) t2
  -- curproc->state = ZOMBIE; sched(); panic("zombie exit");
  t3.set cur { getP t3 cur with state := ProcState.ZOMBIE }

/-- `exit()` (`proc.c:272-313`).  `cur` is the caller's slot, `initIdx`
the slot of `initproc`.  The call never returns: it either panics
(`initproc` exiting) or context-switches away for good. -/
def exitRun (t : List Proc) (cur initIdx : Nat) : ExitRes :=
  if cur = initIdx then ExitRes.panicked   -- panic("init exiting")
  else ExitRes.switchedAway (exitBody t cur initIdx)

/-! ## kill (`proc.c`) -/

/-- The `kill` scan (`proc.c:650-651`): index of the first slot with the
given pid. -/
def firstPid (pid : Int) : List Proc → Option Nat
  | [] => none
  | p :: rest =>
    if p.pid = pid then some 0
    else (firstPid pid rest).map (· + 1)

/-- `kill(pid)` (`proc.c:644-662`): mark the target killed and, if it is
`SLEEPING`, make it `RUNNABLE`; return 0, or -1 if no such pid. -/
def kill (pid : Int) (t : List Proc) : Int × List Proc :=
  match firstPid pid t with
  | some i =>
    let p := getP t i
    let p1 := { p with
      killed := true
      state := if p.state = ProcState.SLEEPING then ProcState.RUNNABLE
               else p.state }
    (0, t.set i p1)
  | none => (-1, t)

/-! ## Reachable table states (for the chan/SLEEPING invariant)

The operations of `proc.c` that write a slot's `state` or `chan` field,
each performed under `ptable.lock`.  Guards record the state the slot is
known to be in when the corresponding code point executes (`sleep` and
`exit` run in the context of the `RUNNING` caller; the scheduler
dispatches only `RUNNABLE` slots; `allocproc` claims only `UNUSED`
slots). -/

inductive Op
  | alloc (i : Nat)              -- allocproc: UNUSED -> EMBRYO (proc.c:99)
  | mkRunnable (i : Nat)         -- fork/userinit: EMBRYO -> RUNNABLE (proc.c:262)
  | dispatch (i : Nat)           -- scheduler: RUNNABLE -> RUNNING (proc.c:398)
  | yieldOp (i : Nat)            -- yield: RUNNING -> RUNNABLE (proc.c:474)
  | sleepReg (i : Nat) (c : Chan) -- sleep: chan := c; state := SLEEPING (proc.c:582-583)
  | sleepClear (i : Nat)         -- sleep after resuming: chan := 0 (proc.c:594)
  | wakeupOp (c : Chan)          -- wakeup1 (proc.c:617-619)
  | killOp (pid : Int)           -- kill (proc.c:650-657)
  | exitOp (i : Nat)             -- exit: state := ZOMBIE (proc.c:310)
deriving DecidableEq, Repr

/-- Apply one operation to the table. -/
def applyOp (t : List Proc) : Op → List Proc
  | Op.alloc i =>
    if (getP t i).state = ProcState.UNUSED then
      t.set i { getP t i with state := ProcState.EMBRYO } else t
  | Op.mkRunnable i =>
    if (getP t i).state = ProcState.EMBRYO then
      t.set i { getP t i with state := ProcState.RUNNABLE } else t
  | Op.dispatch i =>
    if (getP t i).state = ProcState.RUNNABLE then
      t.set i { getP t i with state := ProcState.RUNNING } else t
  | Op.yieldOp i =>
    if (getP t i).state = ProcState.RUNNING then
      t.set i { getP t i with state := ProcState.RUNNABLE } else t
  | Op.sleepReg i c =>
    if (getP t i).state = ProcState.RUNNING then
      t.set i { getP t i with chan := some c, state := ProcState.SLEEPING } else t
  | Op.sleepClear i =>
    if (getP t i).state = ProcState.RUNNING then
      t.set i { getP t i with chan := none } else t
  | Op.wakeupOp c => wakeup1 (some c) t
  | Op.killOp pid => (kill pid t).2
  | Op.exitOp i =>
    if (getP t i).state = ProcState.RUNNING then
      t.set i { getP t i with state := ProcState.ZOMBIE } else t

/-- Run a sequence of operations. -/
def execOps (t : List Proc) (ops : List Op) : List Proc :=
  ops.foldl applyOp t

/-- The claimed invariant: `chan` is non-null exactly when the state is
`SLEEPING`. -/
def chanIffInv (t : List Proc) : Prop :=
  ∀ p ∈ t, (p.chan ≠ none ↔ p.state = ProcState.SLEEPING)

instance (t : List Proc) : Decidable (chanIffInv t) := by
  unfold chanIffInv; infer_instance

/-- The direction of the invariant the code actually maintains: a
`SLEEPING` process always has a non-null `chan`. -/
def sleepChanInv (t : List Proc) : Prop :=
  ∀ p ∈ t, p.state = ProcState.SLEEPING → p.chan ≠ none

instance (t : List Proc) : Decidable (sleepChanInv t) := by
  unfold sleepChanInv; infer_instance

/-! ## Trap dispatch (`trap.c`) -/

def T_SYSCALL : Nat := 64
def T_IRQ0 : Nat := 32
def IRQ_TIMER : Nat := 0
def IRQ_KBD : Nat := 1
def IRQ_COM1 : Nat := 4
def IRQ_IDE : Nat := 14
def IRQ_SPURIOUS : Nat := 31
def DPL_USER : Nat := 3

/-- The trap identifiers the `trap()` switch recognizes (system call,
timer, the device interrupts, and the spurious identifiers); everything
else falls to the `default:` arm. -/
def recognizedTrap (n : Nat) : Bool :=
  decide (n = T_SYSCALL) || decide (n = T_IRQ0 + IRQ_TIMER) ||
  decide (n = T_IRQ0 + IRQ_IDE) || decide (n = T_IRQ0 + IRQ_IDE + 1) ||
  decide (n = T_IRQ0 + IRQ_KBD) || decide (n = T_IRQ0 + IRQ_COM1) ||
  decide (n = T_IRQ0 + 7) || decide (n = T_IRQ0 + IRQ_SPURIOUS)

/-- Outcome of the `switch(tf->trapno)` dispatch in `trap()`
(`trap.c:64-114`), excluding the system-call branch (which returns from
`trap` directly).  `ok` carries the possibly updated current process and
tick counter. -/
inductive DispatchRes
  | panicked
  | ok (pr : Option Proc) (ticks : Nat)
deriving DecidableEq, Repr

/-- The non-syscall `switch` of `trap()` (`trap.c:64-114`).  `pr` is
`myproc()`, `cs` the trap frame's code selector, `cpu` the CPU id,
`ticks` the tick counter.  Device branches (`ideintr`, `kbdintr`,
`uartintr`, `lapiceoi`) act on device state outside the table; the
timer branch on CPU 0 increments `ticks` and performs `wakeup(&ticks)`
on the table (the table effect is `wakeup`, modelled separately). -/
def trapSwitch (trapno cs : Nat) (pr : Option Proc) (cpu ticks : Nat) :
    DispatchRes :=
  if trapno = T_IRQ0 + IRQ_TIMER then
    DispatchRes.ok pr (if cpu = 0 then ticks + 1 else ticks)
  else if trapno = T_IRQ0 + IRQ_IDE then DispatchRes.ok pr ticks
  else if trapno = T_IRQ0 + IRQ_IDE + 1 then DispatchRes.ok pr ticks
  else if trapno = T_IRQ0 + IRQ_KBD then DispatchRes.ok pr ticks
  else if trapno = T_IRQ0 + IRQ_COM1 then DispatchRes.ok pr ticks
  else if trapno = T_IRQ0 + 7 then DispatchRes.ok pr ticks
  else if trapno = T_IRQ0 + IRQ_SPURIOUS then DispatchRes.ok pr ticks
  else
    -- default: unrecognized trap
    match pr with
    | none => DispatchRes.panicked         -- panic("trap")
    | some p =>
      if cs &&& 3 = 0 then DispatchRes.panicked
      else DispatchRes.ok (some { p with killed := true }) ticks

/-- Overall outcome of `trap()`.  `exitedAtCk 1` / `exitedAtCk 2` mean
`exit()` was invoked at the first / second post-dispatch killed
checkpoint; `exitedInSyscall` means `exit()` was invoked inside the
system-call branch; `nullDeref` marks the (never exercised) null
`myproc()` dereference on the system-call path. -/
inductive TrapRes
  | nullDeref
  | panicked
  | exitedInSyscall
  | exitedAtCk (ck : Nat)
  | returned (pr : Option Proc) (ticks : Nat)
deriving DecidableEq, Repr

/-- `trap(tf)` (`trap.c:51-132`).  `syscallKills` abstracts whether the
invoked system call leaves `myproc()->killed` set; `killedDuringYield`
abstracts a concurrent `kill` landing while the process was yielded.
The system-call branch `return`s before the post-dispatch checkpoints;
all other branches fall through to them. -/
def trap (trapno cs : Nat) (pr : Option Proc) (cpu ticks : Nat)
    (syscallKills killedDuringYield : Bool) : TrapRes :=
  if trapno = T_SYSCALL then
    match pr with
    | none => TrapRes.nullDeref
    | some p =>
      if p.killed then TrapRes.exitedInSyscall
      else
        let p1 := { p with killed := syscallKills }
        if p1.killed then TrapRes.exitedInSyscall
        else TrapRes.returned (some p1) ticks
  else
    match trapSwitch trapno cs pr cpu ticks with
    | DispatchRes.panicked => TrapRes.panicked
    | DispatchRes.ok pr1 ticks1 =>
      match pr1 with
      | none => TrapRes.returned none ticks1
      | some p1 =>
        -- if(myproc() && myproc()->killed && (tf->cs&3) == DPL_USER) exit();
        if p1.killed ∧ cs &&& 3 = DPL_USER then TrapRes.exitedAtCk 1
        else
          -- if(myproc() && myproc()->state == RUNNING && trapno == timer) yield();
          let p2 :=
            if p1.state = ProcState.RUNNING ∧ trapno = T_IRQ0 + IRQ_TIMER then
              { p1 with killed := p1.killed || killedDuringYield }
            else p1
          if p2.killed ∧ cs &&& 3 = DPL_USER then TrapRes.exitedAtCk 2
          else TrapRes.returned (some p2) ticks1

/-! ## sys_sleep (`sysproc.c`) -/

/-- Events delivered to a process blocked in the `sys_sleep` loop:
a timer interrupt on CPU 0 (`ticks++; wakeup(&ticks)`), a wakeup on
`&ticks` that does not advance the counter this process observes
(spurious, e.g. shared-channel collisions), or a `kill` targeting the
process (which also wakes it). -/
inductive TickEv
  | tick
  | spuriousWake
  | killEv
deriving DecidableEq, Repr

/-- The `while(ticks - ticks0 < n)` loop of `sys_sleep`
(`sysproc.c:75-85`), starting from current counter `t` with recorded
start `t0`.  Each event wakes the sleeping process, which re-tests the
condition.  Returns the system call's result and the counter value at
return; `none` means the event list ran out with the process still
sleeping.  (`ticks` is a monotone `uint`, so `ticks - ticks0` is the
Nat difference.) -/
def sysSleepLoop (n t0 : Nat) : Bool → Nat → List TickEv → Option (Int × Nat)
  | killed, t, evs =>
    if n ≤ t - t0 then some (0, t)         -- loop exits: release, return 0
    else if killed then some (-1, t)       -- if(myproc()->killed) return -1
    else
      match evs with
      | [] => none                          -- still sleeping on &ticks
      | TickEv.tick :: rest => sysSleepLoop n t0 killed (t + 1) rest
      | TickEv.spuriousWake :: rest => sysSleepLoop n t0 killed t rest
      | TickEv.killEv :: rest => sysSleepLoop n t0 true t rest

/-! ## Table-access lemmas -/

theorem getP_set_self (t : List Proc) (i : Nat) (p : Proc) (h : i < t.length) :
    getP (t.set i p) i = p := by
  induction t generalizing i with
  | nil => simp at h
  | cons q rest ih =>
    cases i with
    | zero => rfl
    | succ j => exact ih j (Nat.lt_of_succ_lt_succ h)

theorem getP_set_ne (t : List Proc) (i j : Nat) (p : Proc) (h : i ≠ j) :
    getP (t.set i p) j = getP t j := by
  induction t generalizing i j with
  | nil => cases j <;> rfl
  | cons q rest ih =>
    cases i with
    | zero =>
      cases j with
      | zero => exact absurd rfl h
      | succ j' => rfl
    | succ i' =>
      cases j with
      | zero => rfl
      | succ j' => exact ih i' j' fun hc => h (congrArg Nat.succ hc)

theorem getP_map (f : Proc → Proc) (t : List Proc) (i : Nat) (h : i < t.length) :
    getP (t.map f) i = f (getP t i) := by
  induction t generalizing i with
  | nil => simp at h
  | cons q rest ih =>
    cases i with
    | zero => rfl
    | succ j => exact ih j (Nat.lt_of_succ_lt_succ h)

theorem getP_wakeup1 (c : Option Chan) (t : List Proc) (i : Nat)
    (h : i < t.length) :
    getP (wakeup1 c t) i = wakeupMatch c (getP t i) :=
  getP_map (wakeupMatch c) t i h

theorem length_wakeup1 (c : Option Chan) (t : List Proc) :
    (wakeup1 c t).length = t.length := by
  simp [wakeup1]

theorem wakeupMatch_parent (c : Option Chan) (p : Proc) :
    (wakeupMatch c p).parent = p.parent := by
  unfold wakeupMatch; split <;> rfl

theorem wakeupMatch_chan (c : Option Chan) (p : Proc) :
    (wakeupMatch c p).chan = p.chan := by
  unfold wakeupMatch; split <;> rfl

theorem wakeupMatch_state (c : Option Chan) (p : Proc) :
    (wakeupMatch c p).state =
      if p.state = ProcState.SLEEPING ∧ p.chan = c then ProcState.RUNNABLE
      else p.state := by
  unfold wakeupMatch; split <;> simp_all

/-! ## C1: the sleep lock protocol -/

/-- **C1.** For every call to `sleep(chan, lk)` by a running process:
when `lk` is not the process-table lock, `sleep` acquires `ptable.lock`
and then (after, in program order) releases `lk`, records the caller's
`chan` and `SLEEPING` state, and context-switches into the scheduler;
on resumption it clears `chan` and then releases `ptable.lock` and
re-acquires `lk`.  When `lk` is `ptable.lock` itself, no acquire or
release of that lock happens anywhere in the call. -/
theorem C1_sleep_protocol (p resumed : Proc) (c : Chan) (id : Nat) :
    (∃ evs atSched fin,
      sleepRun (some p) (some (LockArg.other id)) c resumed =
        SleepRes.ran evs atSched fin ∧
      evs = [SleepEv1.acq LockArg.ptableLock, SleepEv1.rel (LockArg.other id),
             SleepEv1.sw, SleepEv1.rel LockArg.ptableLock,
             SleepEv1.acq (LockArg.other id)] ∧
      atSched.chan = some c ∧ atSched.state = ProcState.SLEEPING ∧
      fin.chan = none) ∧
    (∃ evs atSched fin,
      sleepRun (some p) (some LockArg.ptableLock) c resumed =
        SleepRes.ran evs atSched fin ∧
      evs = [SleepEv1.sw] ∧
      SleepEv1.acq LockArg.ptableLock ∉ evs ∧
      SleepEv1.rel LockArg.ptableLock ∉ evs ∧
      atSched.chan = some c ∧ atSched.state = ProcState.SLEEPING ∧
      fin.chan = none) := by
  constructor
  · refine ⟨_, _, _, rfl, ?_, ?_, ?_, ?_⟩
    · simp [sleepRun]
    · rfl
    · rfl
    · rfl
  · refine ⟨_, _, _, rfl, ?_, ?_, ?_, ?_, ?_, ?_⟩
    · rfl
    · decide
    · decide
    · rfl
    · rfl
    · rfl

/-! ## C2: wakeup wakes exactly the matching sleepers -/

/-- **C2.** `wakeup(tag)` (holding `ptable.lock` around its `wakeup1`
scan) sets every process that is `SLEEPING` on exactly channel `tag` to
`RUNNABLE`, and leaves every other table entry — any other state, or
sleeping on a different channel — completely unchanged. -/
theorem C2_wakeup_exact (t : List Proc) (c : Chan) (i : Nat)
    (h : i < t.length) :
    ((getP t i).state = ProcState.SLEEPING ∧ (getP t i).chan = some c →
      getP (wakeup c t) i = { getP t i with state := ProcState.RUNNABLE }) ∧
    (¬((getP t i).state = ProcState.SLEEPING ∧ (getP t i).chan = some c) →
      getP (wakeup c t) i = getP t i) := by
  unfold wakeup
  rw [getP_wakeup1 _ _ _ h]
  constructor
  · intro hm
    simp [wakeupMatch, hm]
  · intro hm
    simp [wakeupMatch, hm]

/-- Witness for C2: a two-entry table where slot 0 sleeps on the matched
channel (woken unchanged except its state) and slot 1 sleeps on a
different channel (untouched). -/
theorem C2_wakeup_exact_witness :
    getP (wakeup (Chan.other 5)
        [{ (default : Proc) with state := ProcState.SLEEPING, chan := some (Chan.other 5) },
         { (default : Proc) with state := ProcState.SLEEPING, chan := some (Chan.other 9) }]) 0 =
      { ({ (default : Proc) with state := ProcState.SLEEPING, chan := some (Chan.other 5) }) with
          state := ProcState.RUNNABLE } ∧
    getP (wakeup (Chan.other 5)
        [{ (default : Proc) with state := ProcState.SLEEPING, chan := some (Chan.other 5) },
         { (default : Proc) with state := ProcState.SLEEPING, chan := some (Chan.other 9) }]) 1 =
      { (default : Proc) with state := ProcState.SLEEPING, chan := some (Chan.other 9) } := by
  constructor
  · exact (C2_wakeup_exact _ (Chan.other 5) 0 (by decide)).1 (by decide)
  · exact (C2_wakeup_exact _ (Chan.other 5) 1 (by decide)).2 (by decide)

/-! ## C9: sys_sleep never returns success early -/

theorem sysSleepLoop_nil (n t0 : Nat) (k : Bool) (t : Nat) :
    sysSleepLoop n t0 k t [] =
      if n ≤ t - t0 then some (0, t)
      else if k then some (-1, t) else none := by
  rw [sysSleepLoop.eq_def]

theorem sysSleepLoop_cons (n t0 : Nat) (k : Bool) (t : Nat) (ev : TickEv)
    (rest : List TickEv) :
    sysSleepLoop n t0 k t (ev :: rest) =
      if n ≤ t - t0 then some (0, t)
      else if k then some (-1, t)
      else match ev with
        | TickEv.tick => sysSleepLoop n t0 k (t + 1) rest
        | TickEv.spuriousWake => sysSleepLoop n t0 k t rest
        | TickEv.killEv => sysSleepLoop n t0 true t rest := by
  rw [sysSleepLoop.eq_def]
  cases ev <;> rfl

/-- **C9.** The `sys_sleep` wait loop, entered not killed and never
killed while waiting, returns success only once the tick counter has
advanced by at least `n` from its recorded start `t0`: whatever sequence
of tick and spurious wakeup events is delivered, if the loop returns it
returns 0 at a counter value at least `t0 + n`; wakeups arriving before
`n` ticks have elapsed put the process back to sleep on `&ticks` rather
than returning. -/
theorem C9_sys_sleep_no_early_return (n t0 : Nat) (evs : List TickEv)
    (t : Nat) (r : Int) (tEnd : Nat)
    (hstart : t0 ≤ t)
    (hnk : TickEv.killEv ∉ evs)
    (hret : sysSleepLoop n t0 false t evs = some (r, tEnd)) :
    r = 0 ∧ t0 + n ≤ tEnd := by
  induction evs generalizing t with
  | nil =>
    rw [sysSleepLoop_nil] at hret
    by_cases hn : n ≤ t - t0
    · simp [hn] at hret
      obtain ⟨hr, ht⟩ := hret
      exact ⟨by omega, by omega⟩
    · simp [hn] at hret
  | cons ev rest ih =>
    rw [sysSleepLoop_cons] at hret
    by_cases hn : n ≤ t - t0
    · simp [hn] at hret
      obtain ⟨hr, ht⟩ := hret
      exact ⟨by omega, by omega⟩
    · simp [hn] at hret
      cases ev with
      | tick =>
        exact ih _ (Nat.le_succ_of_le hstart)
          (fun hm => hnk (List.mem_cons_of_mem _ hm)) hret
      | spuriousWake =>
        exact ih _ hstart (fun hm => hnk (List.mem_cons_of_mem _ hm)) hret
      | killEv => exact absurd (List.mem_cons_self _ _) hnk

/-- Witness for C9: sleeping for 10 ticks starting at counter 0 with a
stream of 100 timer ticks returns 0 exactly at counter 10. -/
theorem C9_sys_sleep_no_early_return_witness :
    (0 : Int) = 0 ∧ 0 + 10 ≤ 10 := by
  refine C9_sys_sleep_no_early_return 10 0 (List.replicate 100 TickEv.tick)
    0 0 10 (Nat.le_refl 0) ?_ ?_
  · intro hm
    have := List.eq_of_mem_replicate hm
    simp at this
  · decide

/-! ## allocproc / fork lemmas -/

theorem firstUnused_lt (t : List Proc) (i : Nat)
    (h : firstUnused t = some i) : i < t.length := by
  induction t generalizing i with
  | nil => simp [firstUnused] at h
  | cons q rest ih =>
    rw [firstUnused] at h
    by_cases hq : q.state = ProcState.UNUSED
    · simp [hq] at h
      subst h
      simp
    · simp [hq] at h
      obtain ⟨j, hj, rfl⟩ := h
      exact Nat.succ_lt_succ (ih j hj)

theorem firstUnused_state (t : List Proc) (i : Nat)
    (h : firstUnused t = some i) : (getP t i).state = ProcState.UNUSED := by
  induction t generalizing i with
  | nil => simp [firstUnused] at h
  | cons q rest ih =>
    rw [firstUnused] at h
    by_cases hq : q.state = ProcState.UNUSED
    · simp [hq] at h
      subst h
      exact hq
    · simp [hq] at h
      obtain ⟨j, hj, rfl⟩ := h
      exact ih j hj

/-- The successful `allocproc` as one equation: the first `UNUSED` slot
is claimed, given pid `nextpid`, a kernel stack, and a fresh context
resuming at `forkret`. -/
theorem allocproc_some (pt : Ptable) (k i : Nat)
    (hfind : firstUnused pt.procs = some i) :
    allocproc pt (some k) =
      (some i,
       { procs := pt.procs.set i
           { { getP pt.procs i with state := ProcState.EMBRYO, pid := pt.nextpid } with
             kstack := some k
             context := { edi := 0, esi := 0, ebx := 0, ebp := 0, eip := forkretEip } }
         nextpid := pt.nextpid + 1 }) := by
  unfold allocproc
  rw [hfind]

/-! ## C5: fork failure rolls the slot back (amended) -/

/-- **C5 (amended).** When the address-space copy in `fork` fails, fork
returns `-1`, the claimed slot is rolled back to `UNUSED` with its
kernel stack freed and nulled, every slot's `state` field equals its
pre-call value (in particular no slot is left in `EMBRYO`), and the
table keeps its size.  (The table is *not* bit-for-bit unchanged: the
failed slot keeps the freshly assigned pid — see the counterexample.) -/
theorem C5_fork_copy_failure (pt : Ptable) (curIdx k : Nat) (i : Nat)
    (hfind : firstUnused pt.procs = some i) :
    (fork pt curIdx (some k) none).1 = -1 ∧
    (getP (fork pt curIdx (some k) none).2.procs i).state = ProcState.UNUSED ∧
    (getP (fork pt curIdx (some k) none).2.procs i).kstack = none ∧
    (getP (fork pt curIdx (some k) none).2.procs i).pgdir = none ∧
    (∀ j, (getP (fork pt curIdx (some k) none).2.procs j).state =
            (getP pt.procs j).state) ∧
    (fork pt curIdx (some k) none).2.procs.length = pt.procs.length := by
  have hlt := firstUnused_lt _ _ hfind
  have hst := firstUnused_state _ _ hfind
  rw [fork, allocproc_some pt k i hfind]
  refine ⟨rfl, ?_, ?_, ?_, ?_, ?_⟩
  · simp only [List.set_set, getP_set_self _ _ _ hlt]
  · simp only [List.set_set, getP_set_self _ _ _ hlt]
  · simp only [List.set_set, getP_set_self _ _ _ hlt]
  · intro j
    by_cases hij : i = j
    · subst hij
      simp only [List.set_set, getP_set_self _ _ _ hlt, hst]
    · simp only [List.set_set, getP_set_ne _ _ _ _ hij]
  · simp

/-- Witness for C5 (amended): a two-slot table whose slot 1 is free;
fork with a failing copy returns -1 and leaves slot 1 `UNUSED`. -/
theorem C5_fork_copy_failure_witness :
    (fork { procs := [{ (default : Proc) with state := ProcState.RUNNING, pid := 3 },
                      (default : Proc)], nextpid := 4 } 0 (some 11) none).1 = -1 ∧
    (getP (fork { procs := [{ (default : Proc) with state := ProcState.RUNNING, pid := 3 },
                            (default : Proc)], nextpid := 4 } 0 (some 11) none).2.procs 1).state =
      ProcState.UNUSED := by
  have h := C5_fork_copy_failure
    { procs := [{ (default : Proc) with state := ProcState.RUNNING, pid := 3 },
                (default : Proc)], nextpid := 4 } 0 11 1 (by decide)
  exact ⟨h.1, h.2.1⟩

/-- Counterexample to C5 as stated: after the failed fork the table is
*not* unchanged — the failed slot's `pid` field now holds the freshly
assigned pid 4 where it held 0 before the call. -/
theorem C5_fork_copy_failure_counterexample :
    (fork { procs := [{ (default : Proc) with state := ProcState.RUNNING, pid := 3 },
                      (default : Proc)], nextpid := 4 } 0 (some 11) none).1 = -1 ∧
    (getP (fork { procs := [{ (default : Proc) with state := ProcState.RUNNING, pid := 3 },
                            (default : Proc)], nextpid := 4 } 0 (some 11) none).2.procs 1).pid = 4 ∧
    (getP [{ (default : Proc) with state := ProcState.RUNNING, pid := 3 },
           (default : Proc)] 1).pid = 0 ∧
    (fork { procs := [{ (default : Proc) with state := ProcState.RUNNING, pid := 3 },
                      (default : Proc)], nextpid := 4 } 0 (some 11) none).2 ≠
      { procs := [{ (default : Proc) with state := ProcState.RUNNING, pid := 3 },
                  (default : Proc)], nextpid := 4 } := by
  decide

/-! ## C6: successful fork -/

/-- **C6.** Every successful `fork` gives the child a trap frame equal
to the parent's except for a zeroed `eax` (so the child observes return
value 0), sets the child `RUNNABLE`, and returns the child's pid — the
fresh `nextpid`, which is non-zero — to the parent (the child's `parent`
field pointing back at the caller). -/
theorem C6_fork_success (pt : Ptable) (curIdx : Nat) (k g : Nat) (i : Nat)
    (hfind : firstUnused pt.procs = some i)
    (hrun : (getP pt.procs curIdx).state = ProcState.RUNNING)
    (hpid : 1 ≤ pt.nextpid) :
    (fork pt curIdx (some k) (some g)).1 = pt.nextpid ∧
    (fork pt curIdx (some k) (some g)).1 ≠ 0 ∧
    (getP (fork pt curIdx (some k) (some g)).2.procs i).state = ProcState.RUNNABLE ∧
    (getP (fork pt curIdx (some k) (some g)).2.procs i).pid = pt.nextpid ∧
    (getP (fork pt curIdx (some k) (some g)).2.procs i).tf =
      { (getP pt.procs curIdx).tf with eax := 0 } ∧
    (getP (fork pt curIdx (some k) (some g)).2.procs i).parent = some curIdx := by
  have hlt := firstUnused_lt _ _ hfind
  have hst := firstUnused_state _ _ hfind
  have hne : i ≠ curIdx := by
    intro hc
    rw [hc, hrun] at hst
    exact absurd hst (by decide)
  rw [fork, allocproc_some pt k i hfind]
  refine ⟨?_, ?_, ?_, ?_, ?_, ?_⟩
  · simp only [List.set_set, getP_set_self _ _ _ hlt]
  · simp only [List.set_set, getP_set_self _ _ _ hlt]
    omega
  · simp only [List.set_set, getP_set_self _ _ _ hlt, getP_set_ne _ _ _ _ hne]
  · simp only [List.set_set, getP_set_self _ _ _ hlt, getP_set_ne _ _ _ _ hne]
  · simp only [List.set_set, getP_set_self _ _ _ hlt, getP_set_ne _ _ _ _ hne]
  · simp only [List.set_set, getP_set_self _ _ _ hlt, getP_set_ne _ _ _ _ hne]

/-! ## C3: the chan/SLEEPING invariant -/

theorem sleepChanInv_set (t : List Proc) (i : Nat) (p : Proc)
    (ht : sleepChanInv t)
    (hp : p.state = ProcState.SLEEPING → p.chan ≠ none) :
    sleepChanInv (t.set i p) := by
  intro q hq
  rcases List.mem_or_eq_of_mem_set hq with h | rfl
  · exact ht q h
  · exact hp

theorem sleepChanInv_wakeup1 (c : Option Chan) (t : List Proc)
    (ht : sleepChanInv t) : sleepChanInv (wakeup1 c t) := by
  intro q hq
  obtain ⟨p, hp, rfl⟩ := List.mem_map.1 hq
  unfold wakeupMatch
  split
  · intro hs
    simp at hs
  · exact ht p hp

theorem sleepChanInv_kill (pid : Int) (t : List Proc)
    (ht : sleepChanInv t) : sleepChanInv (kill pid t).2 := by
  cases hfp : firstPid pid t with
  | none => simpa [kill, hfp] using ht
  | some i =>
    simp only [kill, hfp]
    apply sleepChanInv_set _ _ _ ht
    intro hs
    exfalso
    by_cases h : (getP t i).state = ProcState.SLEEPING
    · simp [h] at hs
    · simp [h] at hs

theorem sleepChanInv_applyOp (t : List Proc) (op : Op)
    (ht : sleepChanInv t) : sleepChanInv (applyOp t op) := by
  cases op with
  | alloc i =>
    simp only [applyOp]
    split
    · exact sleepChanInv_set _ _ _ ht fun hs => by simp at hs
    · exact ht
  | mkRunnable i =>
    simp only [applyOp]
    split
    · exact sleepChanInv_set _ _ _ ht fun hs => by simp at hs
    · exact ht
  | dispatch i =>
    simp only [applyOp]
    split
    · exact sleepChanInv_set _ _ _ ht fun hs => by simp at hs
    · exact ht
  | yieldOp i =>
    simp only [applyOp]
    split
    · exact sleepChanInv_set _ _ _ ht fun hs => by simp at hs
    · exact ht
  | sleepReg i c =>
    simp only [applyOp]
    split
    · exact sleepChanInv_set _ _ _ ht fun _ => by simp
    · exact ht
  | sleepClear i =>
    simp only [applyOp]
    split
    · rename_i h
      refine sleepChanInv_set _ _ _ ht fun hs => ?_
      rw [show ({ getP t i with chan := none } : Proc).state = (getP t i).state from rfl, h] at hs
      simp at hs
    · exact ht
  | wakeupOp c => exact sleepChanInv_wakeup1 _ _ ht
  | killOp pid => exact sleepChanInv_kill _ _ ht
  | exitOp i =>
    simp only [applyOp]
    split
    · exact sleepChanInv_set _ _ _ ht fun hs => by simp at hs
    · exact ht

/-- **C3 (amended).** Along every sequence of the state/chan-writing
operations of `proc.c` (sleep registration and resumption, wakeup, kill,
scheduler dispatch, yield, allocation, exit), a table in which every
`SLEEPING` process has a non-null `chan` keeps that property: the
forward direction of the claimed invariant is maintained everywhere.
The claimed *iff* (`chan` non-null exactly when `SLEEPING`) is false:
`wakeup1` and `kill` make a sleeper `RUNNABLE` without clearing its
`chan`, which stays non-null until the process next runs (see the
counterexample). -/
theorem C3_sleeping_chan_invariant (t : List Proc) (ops : List Op)
    (ht : sleepChanInv t) : sleepChanInv (execOps t ops) := by
  induction ops generalizing t with
  | nil => exact ht
  | cons op rest ih => exact ih _ (sleepChanInv_applyOp t op ht)

/-- Witness for C3 (amended): from a one-slot table, allocate, run and
put the process to sleep, then wake it; the forward invariant holds at
the end (and at the start). -/
theorem C3_sleeping_chan_invariant_witness :
    sleepChanInv [(default : Proc)] ∧
    sleepChanInv (execOps [(default : Proc)]
      [Op.alloc 0, Op.mkRunnable 0, Op.dispatch 0,
       Op.sleepReg 0 (Chan.other 5), Op.wakeupOp (Chan.other 5)]) :=
  ⟨by decide, C3_sleeping_chan_invariant [(default : Proc)] _ (by decide)⟩

/-- Counterexample to C3 as stated: starting from a table satisfying the
claimed iff-invariant, the reachable state right after a `wakeup` on a
sleeping process violates it — the woken process is `RUNNABLE` with its
`chan` still non-null (`wakeup1` does not clear `chan`; only `sleep`
clears it after the process next runs). -/
theorem C3_sleeping_chan_invariant_counterexample :
    chanIffInv [(default : Proc)] ∧
    ¬ chanIffInv (execOps [(default : Proc)]
      [Op.alloc 0, Op.mkRunnable 0, Op.dispatch 0,
       Op.sleepReg 0 (Chan.other 5), Op.wakeupOp (Chan.other 5)]) := by
  decide

/-! ## wait lemmas -/

theorem firstZombieChild_spec (cur : Nat) (t : List Proc) (i : Nat)
    (h : firstZombieChild cur t = some i) :
    i < t.length ∧ (getP t i).parent = some cur ∧
      (getP t i).state = ProcState.ZOMBIE := by
  induction t generalizing i with
  | nil => simp [firstZombieChild] at h
  | cons q rest ih =>
    rw [firstZombieChild] at h
    by_cases hq : q.parent = some cur ∧ q.state = ProcState.ZOMBIE
    · simp [hq] at h
      subst h
      exact ⟨by simp, hq.1, hq.2⟩
    · simp [hq] at h
      obtain ⟨j, hj, rfl⟩ := h
      obtain ⟨h1, h2, h3⟩ := ih j hj
      exact ⟨Nat.succ_lt_succ h1, h2, h3⟩

theorem firstZombieChild_isSome (cur : Nat) (t : List Proc) (j : Nat)
    (hj : j < t.length) (hp : (getP t j).parent = some cur)
    (hz : (getP t j).state = ProcState.ZOMBIE) :
    ∃ i, firstZombieChild cur t = some i := by
  induction t generalizing j with
  | nil => simp at hj
  | cons q rest ih =>
    rw [firstZombieChild]
    by_cases hq : q.parent = some cur ∧ q.state = ProcState.ZOMBIE
    · exact ⟨0, by simp [hq]⟩
    · cases j with
      | zero => exact absurd ⟨hp, hz⟩ hq
      | succ j' =>
        obtain ⟨i, hi⟩ := ih j' (Nat.lt_of_succ_lt_succ hj) hp hz
        exact ⟨i + 1, by simp [hq, hi]⟩

theorem hasKids_false (t : List Proc) (cur : Nat)
    (h : ∀ j, j < t.length → (getP t j).parent ≠ some cur) :
    hasKids t cur = false := by
  induction t with
  | nil => rfl
  | cons q rest ih =>
    have hq : q.parent ≠ some cur := h 0 (by simp)
    have hrest := ih fun j hj => h (j + 1) (Nat.succ_lt_succ hj)
    simp [hasKids] at hrest ⊢
    exact ⟨hq, hrest⟩

/-! ## C4: wait reaps a zombie child; fails fast with no children -/

/-- **C4.** (a) A caller with at least one `ZOMBIE` child gets one such
child reaped by the `wait` scan: the child's kernel stack and address
space are released (`kfree`/`freevm` receive exactly the child's
handles), its identifying fields are reset, its slot becomes `UNUSED`,
every other slot is untouched, and the child's pid is returned.
(b) A caller with no children at all gets `-1` immediately, without
sleeping and without the table changing. -/
theorem C4_wait_zombie_reap_or_fail (t : List Proc) (cur : Nat) :
    ((∃ j, j < t.length ∧ (getP t j).parent = some cur ∧
        (getP t j).state = ProcState.ZOMBIE) →
      ∃ i, i < t.length ∧ (getP t i).parent = some cur ∧
        (getP t i).state = ProcState.ZOMBIE ∧
        (wait1 t cur).1 =
          WaitRes.reaped (getP t i).pid (getP t i).kstack (getP t i).pgdir ∧
        (getP (wait1 t cur).2 i).state = ProcState.UNUSED ∧
        (getP (wait1 t cur).2 i).kstack = none ∧
        (getP (wait1 t cur).2 i).pid = 0 ∧
        (getP (wait1 t cur).2 i).parent = none ∧
        (getP (wait1 t cur).2 i).killed = false ∧
        (∀ j, i ≠ j → getP (wait1 t cur).2 j = getP t j)) ∧
    ((∀ j, j < t.length → (getP t j).parent ≠ some cur) →
      wait1 t cur = (WaitRes.fail, t)) := by
  constructor
  · rintro ⟨j, hj, hp, hz⟩
    obtain ⟨i, hi⟩ := firstZombieChild_isSome cur t j hj hp hz
    obtain ⟨hlt, hpar, hzom⟩ := firstZombieChild_spec cur t i hi
    refine ⟨i, hlt, hpar, hzom, ?_, ?_, ?_, ?_, ?_, ?_, ?_⟩ <;>
      simp only [wait1, hi, getP_set_self _ _ _ hlt]
    intro j hij
    simp only [getP_set_ne _ _ _ _ hij]
  · intro h
    cases hz : firstZombieChild cur t with
    | some i =>
      obtain ⟨hlt, hpar, _⟩ := firstZombieChild_spec cur t i hz
      exact absurd hpar (h i hlt)
    | none =>
      simp only [wait1, hz, hasKids_false t cur h]
      rfl

/-- Table data for the C4 witness: slot 1 is a zombie child of slot 0. -/
def c4ta : List Proc :=
  [{ (default : Proc) with state := ProcState.RUNNING, pid := 1 },
   { (default : Proc) with
      state := ProcState.ZOMBIE, pid := 7, parent := some 0,
      kstack := some 21, pgdir := some 22 }]

/-- Table data for the C4 witness: slot 0 has no children. -/
def c4tb : List Proc :=
  [{ (default : Proc) with state := ProcState.RUNNING, pid := 1 },
   { (default : Proc) with
      state := ProcState.SLEEPING, chan := some Chan.ticksAddr,
      pid := 9 }]

/-- Witness for C4: reaping the zombie child of `c4ta` returns pid 7 and
frees its stack and address space; a childless `wait` on `c4tb` fails
immediately. -/
theorem C4_wait_zombie_reap_or_fail_witness :
    (wait1 c4ta 0).1 = WaitRes.reaped 7 (some 21) (some 22) ∧
    wait1 c4tb 0 = (WaitRes.fail, c4tb) := by
  constructor
  · obtain ⟨i, hlt, hp, hz, hres, _⟩ :=
      (C4_wait_zombie_reap_or_fail c4ta 0).1 ⟨1, by decide, by decide, by decide⟩
    have hi2 : i < 2 := by simpa [c4ta] using hlt
    interval_cases i
    · exact absurd hp (by decide)
    · rw [hres]
      decide
  · exact (C4_wait_zombie_reap_or_fail c4tb 0).2 (by decide)

/-! ## C10: wait by a killed process (amended) -/

/-- **C10 (amended).** A caller whose `killed` flag is set and none of
whose children is a `ZOMBIE` gets `-1` from the `wait` scan without
reaping anything and without sleeping, even when it has living
children.  (The killed check runs only after the zombie scan, so a
killed caller with a `ZOMBIE` child still reaps it and gets its pid —
see the counterexample.) -/
theorem C10_wait_killed_fail (t : List Proc) (cur : Nat)
    (hk : (getP t cur).killed = true)
    (hnz : ∀ j, j < t.length →
      ¬((getP t j).parent = some cur ∧ (getP t j).state = ProcState.ZOMBIE)) :
    wait1 t cur = (WaitRes.fail, t) := by
  cases hz : firstZombieChild cur t with
  | some i =>
    obtain ⟨hlt, hpar, hzom⟩ := firstZombieChild_spec cur t i hz
    exact absurd ⟨hpar, hzom⟩ (hnz i hlt)
  | none =>
    simp [wait1, hz, hk]

/-- Witness for C10 (amended): a killed caller whose only child is
`RUNNABLE` (living) fails immediately instead of sleeping. -/
theorem C10_wait_killed_fail_witness :
    wait1 [{ (default : Proc) with state := ProcState.RUNNING, pid := 1, killed := true },
           { (default : Proc) with state := ProcState.RUNNABLE, pid := 7, parent := some 0 }] 0 =
      (WaitRes.fail,
       [{ (default : Proc) with state := ProcState.RUNNING, pid := 1, killed := true },
        { (default : Proc) with state := ProcState.RUNNABLE, pid := 7, parent := some 0 }]) :=
  C10_wait_killed_fail _ 0 (by decide) (by decide)

/-- Counterexample to C10 as stated: a killed caller with a `ZOMBIE`
child does *not* return `-1` — the zombie scan runs before the killed
check, so the child is reaped and its pid 7 is returned. -/
theorem C10_wait_killed_counterexample :
    (wait1 [{ (default : Proc) with state := ProcState.RUNNING, pid := 1, killed := true },
            { (default : Proc) with
               state := ProcState.ZOMBIE, pid := 7, parent := some 0,
               kstack := some 21, pgdir := some 22 }] 0).1 =
      WaitRes.reaped 7 (some 21) (some 22) ∧
    (wait1 [{ (default : Proc) with state := ProcState.RUNNING, pid := 1, killed := true },
            { (default : Proc) with
               state := ProcState.ZOMBIE, pid := 7, parent := some 0,
               kstack := some 21, pgdir := some 22 }] 0).1 ≠ WaitRes.fail := by
  decide

/-- Witness for C6: forking from slot 0 of a two-slot table claims slot
1, copies the trap frame with `eax` zeroed, and returns pid 4. -/
theorem C6_fork_success_witness :
    (fork { procs := [{ (default : Proc) with state := ProcState.RUNNING, pid := 3 },
                      (default : Proc)], nextpid := 4 } 0 (some 11) (some 12)).1 = 4 ∧
    (getP (fork { procs := [{ (default : Proc) with state := ProcState.RUNNING, pid := 3 },
                            (default : Proc)], nextpid := 4 } 0 (some 11) (some 12)).2.procs 1).state =
      ProcState.RUNNABLE := by
  have h := C6_fork_success
    { procs := [{ (default : Proc) with state := ProcState.RUNNING, pid := 3 },
                (default : Proc)], nextpid := 4 } 0 11 12 1 (by decide) (by decide) (by decide)
  exact ⟨h.1, h.2.2.1⟩

/-! ## exit lemmas: the abandoned-children pass -/

theorem getP_wakeup1_parent (c : Option Chan) (t : List Proc) (j : Nat)
    (hj : j < t.length) :
    (getP (wakeup1 c t) j).parent = (getP t j).parent := by
  rw [getP_wakeup1 _ _ _ hj, wakeupMatch_parent]

theorem getP_wakeup1_chan (c : Option Chan) (t : List Proc) (j : Nat)
    (hj : j < t.length) :
    (getP (wakeup1 c t) j).chan = (getP t j).chan := by
  rw [getP_wakeup1 _ _ _ hj, wakeupMatch_chan]

theorem wakeup1_state_stable (c : Option Chan) (t : List Proc) (j : Nat)
    (hj : j < t.length) (h : (getP t j).state ≠ ProcState.SLEEPING) :
    (getP (wakeup1 c t) j).state = (getP t j).state := by
  rw [getP_wakeup1 _ _ _ hj, wakeupMatch_state, if_neg]
  intro hc
  exact h hc.1

theorem wakeup1_sleeping_cases (c : Option Chan) (t : List Proc) (j : Nat)
    (hj : j < t.length) :
    (getP (wakeup1 c t) j).state = (getP t j).state ∨
    (getP (wakeup1 c t) j).state = ProcState.RUNNABLE := by
  rw [getP_wakeup1 _ _ _ hj, wakeupMatch_state]
  split_ifs with h
  · right; rfl
  · left; rfl

theorem length_reparentStep (cur initIdx i : Nat) (t : List Proc) :
    (reparentStep cur initIdx i t).length = t.length := by
  unfold reparentStep
  split_ifs <;> simp [length_wakeup1]

theorem getP_set_reparent_parent (t : List Proc) (i j initIdx : Nat)
    (hj : j < t.length) :
    (getP (t.set i { getP t i with parent := some initIdx }) j).parent =
      if i = j then some initIdx else (getP t j).parent := by
  by_cases hij : i = j
  · subst hij
    rw [if_pos rfl, getP_set_self _ _ _ hj]
  · rw [if_neg hij, getP_set_ne _ _ _ _ hij]

theorem getP_set_reparent_state (t : List Proc) (i j initIdx : Nat)
    (hj : j < t.length) :
    (getP (t.set i { getP t i with parent := some initIdx }) j).state =
      (getP t j).state := by
  by_cases hij : i = j
  · subst hij
    rw [getP_set_self _ _ _ hj]
  · rw [getP_set_ne _ _ _ _ hij]

theorem getP_set_reparent_chan (t : List Proc) (i j initIdx : Nat)
    (hj : j < t.length) :
    (getP (t.set i { getP t i with parent := some initIdx }) j).chan =
      (getP t j).chan := by
  by_cases hij : i = j
  · subst hij
    rw [getP_set_self _ _ _ hj]
  · rw [getP_set_ne _ _ _ _ hij]

theorem reparentStep_chan (cur initIdx i j : Nat) (t : List Proc)
    (hj : j < t.length) :
    (getP (reparentStep cur initIdx i t) j).chan = (getP t j).chan := by
  unfold reparentStep
  split_ifs with h1 h2
  · rw [getP_wakeup1_chan _ _ _ (by simpa using hj),
      getP_set_reparent_chan _ _ _ _ hj]
  · exact getP_set_reparent_chan _ _ _ _ hj
  · rfl

theorem reparentStep_state (cur initIdx i j : Nat) (t : List Proc)
    (hj : j < t.length) :
    (getP (reparentStep cur initIdx i t) j).state = (getP t j).state ∨
    ((getP t j).state = ProcState.SLEEPING ∧
     (getP t j).chan = some (Chan.procAddr initIdx) ∧
     (getP (reparentStep cur initIdx i t) j).state = ProcState.RUNNABLE) := by
  unfold reparentStep
  split_ifs with h1 h2
  · rw [getP_wakeup1 _ _ _ (by simpa using hj), wakeupMatch_state]
    split_ifs with h3
    · right
      rw [getP_set_reparent_state _ _ _ _ hj, getP_set_reparent_chan _ _ _ _ hj] at h3
      exact ⟨h3.1, h3.2, rfl⟩
    · left
      rw [getP_set_reparent_state _ _ _ _ hj]
  · left
    rw [getP_set_reparent_state _ _ _ _ hj]
  · left
    rfl

theorem reparentStep_state_stable (cur initIdx i j : Nat) (t : List Proc)
    (hj : j < t.length) (h : (getP t j).state ≠ ProcState.SLEEPING) :
    (getP (reparentStep cur initIdx i t) j).state = (getP t j).state := by
  rcases reparentStep_state cur initIdx i j t hj with h1 | ⟨h1, _, _⟩
  · exact h1
  · exact absurd h1 h

theorem reparentStep_wake_fire (cur initIdx i j : Nat) (t : List Proc)
    (hj : j < t.length)
    (hpi : (getP t i).parent = some cur)
    (hzi : (getP t i).state = ProcState.ZOMBIE)
    (hsj : (getP t j).state = ProcState.SLEEPING)
    (hcj : (getP t j).chan = some (Chan.procAddr initIdx)) :
    (getP (reparentStep cur initIdx i t) j).state = ProcState.RUNNABLE := by
  unfold reparentStep
  rw [if_pos hpi, if_pos hzi, getP_wakeup1 _ _ _ (by simpa using hj),
    wakeupMatch_state, if_pos]
  refine ⟨?_, ?_⟩
  · rw [getP_set_reparent_state _ _ _ _ hj]
    exact hsj
  · rw [getP_set_reparent_chan _ _ _ _ hj]
    exact hcj

theorem reparentStep_parent_pres (cur initIdx i j : Nat) (t : List Proc)
    (hj : j < t.length)
    (h : i ≠ j ∨ (getP t j).parent ≠ some cur) :
    (getP (reparentStep cur initIdx i t) j).parent = (getP t j).parent := by
  unfold reparentStep
  split_ifs with h1 h2
  · have hij : i ≠ j := by
      rcases h with h | h
      · exact h
      · intro hc
        subst hc
        exact h h1
    rw [getP_wakeup1_parent _ _ _ (by simpa using hj),
      getP_set_reparent_parent _ _ _ _ hj, if_neg hij]
  · have hij : i ≠ j := by
      rcases h with h | h
      · exact h
      · intro hc
        subst hc
        exact h h1
    rw [getP_set_reparent_parent _ _ _ _ hj, if_neg hij]
  · rfl

theorem reparentStep_parent_fire (cur initIdx j : Nat) (t : List Proc)
    (hj : j < t.length) (hp : (getP t j).parent = some cur) :
    (getP (reparentStep cur initIdx j t) j).parent = some initIdx := by
  unfold reparentStep
  rw [if_pos hp]
  split_ifs with h2
  · rw [getP_wakeup1_parent _ _ _ (by simpa using hj),
      getP_set_reparent_parent _ _ _ _ hj, if_pos rfl]
  · rw [getP_set_reparent_parent _ _ _ _ hj, if_pos rfl]

theorem length_reparentGo (cur initIdx : Nat) (is : List Nat) :
    ∀ t : List Proc, (reparentGo cur initIdx is t).length = t.length := by
  induction is with
  | nil => intro t; rfl
  | cons a rest ih =>
    intro t
    rw [reparentGo, ih, length_reparentStep]

theorem reparentGo_parent_done (cur initIdx : Nat) (hne : cur ≠ initIdx)
    (is : List Nat) :
    ∀ (t : List Proc) (j : Nat), j < t.length →
      (getP t j).parent = some initIdx →
      (getP (reparentGo cur initIdx is t) j).parent = some initIdx := by
  induction is with
  | nil => intro t j _ h; exact h
  | cons a rest ih =>
    intro t j hj h
    rw [reparentGo]
    refine ih _ _ (by rw [length_reparentStep]; exact hj) ?_
    rw [reparentStep_parent_pres cur initIdx a j t hj (Or.inr ?_)]
    · exact h
    · rw [h]
      intro hc
      exact hne (Option.some.inj hc).symm

theorem reparentGo_parent (cur initIdx : Nat) (hne : cur ≠ initIdx)
    (is : List Nat) :
    ∀ (t : List Proc) (j : Nat), j < t.length → j ∈ is →
      (getP t j).parent = some cur →
      (getP (reparentGo cur initIdx is t) j).parent = some initIdx := by
  induction is with
  | nil => intro t j _ hmem; simp at hmem
  | cons a rest ih =>
    intro t j hj hmem hp
    rw [reparentGo]
    by_cases haj : a = j
    · subst haj
      exact reparentGo_parent_done cur initIdx hne rest _ a
        (by rw [length_reparentStep]; exact hj)
        (reparentStep_parent_fire cur initIdx a t hj hp)
    · rcases List.mem_cons.1 hmem with h | h
      · exact absurd h.symm haj
      · refine ih _ j (by rw [length_reparentStep]; exact hj) h ?_
        rw [reparentStep_parent_pres cur initIdx a j t hj (Or.inl haj)]
        exact hp

theorem reparentGo_runnable (cur initIdx : Nat) (is : List Nat) :
    ∀ (t : List Proc) (j : Nat), j < t.length →
      (getP t j).state = ProcState.RUNNABLE →
      (getP (reparentGo cur initIdx is t) j).state = ProcState.RUNNABLE := by
  induction is with
  | nil => intro t j _ h; exact h
  | cons a rest ih =>
    intro t j hj h
    rw [reparentGo]
    refine ih _ _ (by rw [length_reparentStep]; exact hj) ?_
    rw [reparentStep_state_stable cur initIdx a j t hj (by rw [h]; decide)]
    exact h

theorem reparentGo_wakes (cur initIdx : Nat) (is : List Nat) :
    ∀ (t : List Proc) (i j : Nat), i ∈ is → i < t.length → j < t.length →
      (getP t i).parent = some cur → (getP t i).state = ProcState.ZOMBIE →
      ((getP t j).state = ProcState.RUNNABLE ∨
       ((getP t j).state = ProcState.SLEEPING ∧
        (getP t j).chan = some (Chan.procAddr initIdx))) →
      (getP (reparentGo cur initIdx is t) j).state = ProcState.RUNNABLE := by
  induction is with
  | nil => intro t i j hmem; simp at hmem
  | cons a rest ih =>
    intro t i j hmem hi hj hpi hzi hst
    rw [reparentGo]
    by_cases hai : a = i
    · subst hai
      have hr : (getP (reparentStep cur initIdx a t) j).state =
          ProcState.RUNNABLE := by
        rcases hst with h | ⟨hs, hc⟩
        · rw [reparentStep_state_stable cur initIdx a j t hj (by rw [h]; decide)]
          exact h
        · exact reparentStep_wake_fire cur initIdx a j t hj hpi hzi hs hc
      exact reparentGo_runnable cur initIdx rest _ j
        (by rw [length_reparentStep]; exact hj) hr
    · rcases List.mem_cons.1 hmem with h | h
      · exact absurd h.symm hai
      · refine ih _ i j h (by rw [length_reparentStep]; exact hi)
          (by rw [length_reparentStep]; exact hj) ?_ ?_ ?_
        · rw [reparentStep_parent_pres cur initIdx a i t hi (Or.inl hai)]
          exact hpi
        · rw [reparentStep_state_stable cur initIdx a i t hi (by rw [hzi]; decide)]
          exact hzi
        · rcases hst with h1 | ⟨hs, hc⟩
          · left
            rw [reparentStep_state_stable cur initIdx a j t hj (by rw [h1]; decide)]
            exact h1
          · rcases reparentStep_state cur initIdx a j t hj with h2 | ⟨_, _, h2⟩
            · right
              refine ⟨by rw [h2]; exact hs, ?_⟩
              rw [reparentStep_chan cur initIdx a j t hj]
              exact hc
            · left
              exact h2

theorem length_exitPre (t : List Proc) (cur : Nat) :
    (exitPre t cur).length = t.length := by
  simp [exitPre]

theorem exitPre_parent (t : List Proc) (cur j : Nat) (hj : j < t.length) :
    (getP (exitPre t cur) j).parent = (getP t j).parent := by
  unfold exitPre
  by_cases hcj : cur = j
  · subst hcj
    rw [getP_set_self _ _ _ hj]
  · rw [getP_set_ne _ _ _ _ hcj]

theorem exitPre_state (t : List Proc) (cur j : Nat) (hj : j < t.length) :
    (getP (exitPre t cur) j).state = (getP t j).state := by
  unfold exitPre
  by_cases hcj : cur = j
  · subst hcj
    rw [getP_set_self _ _ _ hj]
  · rw [getP_set_ne _ _ _ _ hcj]

theorem exitPre_chan (t : List Proc) (cur j : Nat) (hj : j < t.length) :
    (getP (exitPre t cur) j).chan = (getP t j).chan := by
  unfold exitPre
  by_cases hcj : cur = j
  · subst hcj
    rw [getP_set_self _ _ _ hj]
  · rw [getP_set_ne _ _ _ _ hcj]

/-! ## C7: exit reparents children to the reaper and never returns -/

/-- **C7.** `exit()` by a (non-init) running process: the call only ever
context-switches away (the result type has no normal-return outcome;
after `sched()` the code is `panic("zombie exit")`).  In the table it
leaves behind: every child of the caller has its parent reference
updated to the reaper `initproc`; if any child was already `ZOMBIE`,
every process sleeping on the reaper's channel (the reaper waiting in
`wait()` sleeps on its own slot address) has been made `RUNNABLE`; and
the caller's own state is `ZOMBIE`. -/
theorem C7_exit_reparent_and_zombie (t : List Proc) (cur initIdx : Nat)
    (hlen : cur < t.length) (hne : cur ≠ initIdx)
    (hrun : (getP t cur).state = ProcState.RUNNING) :
    ∃ t', exitRun t cur initIdx = ExitRes.switchedAway t' ∧
      t'.length = t.length ∧
      (∀ j, j < t.length → (getP t j).parent = some cur →
        (getP t' j).parent = some initIdx) ∧
      ((∃ i, i < t.length ∧ (getP t i).parent = some cur ∧
          (getP t i).state = ProcState.ZOMBIE) →
        ∀ j, j < t.length → (getP t j).state = ProcState.SLEEPING →
          (getP t j).chan = some (Chan.procAddr initIdx) →
          (getP t' j).state = ProcState.RUNNABLE) ∧
      (getP t' cur).state = ProcState.ZOMBIE := by
  refine ⟨exitBody t cur initIdx, by rw [exitRun, if_neg hne], ?_, ?_, ?_, ?_⟩
  all_goals
    set t1 := exitPre t cur with ht1
    set ch := (getP t1 cur).parent.map Chan.procAddr with hch
    set t2 := wakeup1 ch t1 with ht2
    set t3 := reparentGo cur initIdx (List.range t2.length) t2 with ht3
    have hbody : exitBody t cur initIdx =
        t3.set cur { getP t3 cur with state := ProcState.ZOMBIE } := rfl
    have hl1 : t1.length = t.length := length_exitPre t cur
    have hl2 : t2.length = t.length := by rw [ht2, length_wakeup1, hl1]
    have hl3 : t3.length = t.length := by rw [ht3, length_reparentGo, hl2]
  -- length of the final table
  · rw [hbody, List.length_set, hl3]
  -- every child of the caller is reparented to the reaper
  · intro j hj hp
    rw [hbody]
    have hjl3 : j < t3.length := by rw [hl3]; exact hj
    have hp3 : (getP t3 j).parent = some initIdx := by
      rw [ht3]
      refine reparentGo_parent cur initIdx hne _ t2 j (by rw [hl2]; exact hj)
        (List.mem_range.2 (by rw [hl2]; exact hj)) ?_
      rw [ht2, getP_wakeup1_parent _ _ _ (by rw [hl1]; exact hj), ht1,
        exitPre_parent t cur j hj]
      exact hp
    by_cases hcj : cur = j
    · subst hcj
      rw [getP_set_self _ _ _ hjl3]
      exact hp3
    · rw [getP_set_ne _ _ _ _ hcj]
      exact hp3
  -- a zombie child wakes every sleeper on the reaper's channel
  · rintro ⟨i, hi, hpi, hzi⟩ j hj hsj hcj
    rw [hbody]
    have hjc : cur ≠ j := by
      intro hc
      subst hc
      rw [hrun] at hsj
      exact absurd hsj (by decide)
    rw [getP_set_ne _ _ _ _ hjc, ht3]
    have hi1 : i < t1.length := by rw [hl1]; exact hi
    have hj1 : j < t1.length := by rw [hl1]; exact hj
    have hsi1 : (getP t1 i).state = (getP t i).state := by
      rw [ht1]; exact exitPre_state t cur i hi
    refine reparentGo_wakes cur initIdx _ t2 i j
      (List.mem_range.2 (by rw [hl2]; exact hi))
      (by rw [hl2]; exact hi) (by rw [hl2]; exact hj) ?_ ?_ ?_
    · rw [ht2, getP_wakeup1_parent _ _ _ hi1, ht1, exitPre_parent t cur i hi]
      exact hpi
    · rw [ht2, wakeup1_state_stable _ _ _ hi1 (by rw [hsi1, hzi]; decide),
        hsi1, hzi]
    · have hs1 : (getP t1 j).state = (getP t j).state := by
        rw [ht1]; exact exitPre_state t cur j hj
      have hc1 : (getP t1 j).chan = (getP t j).chan := by
        rw [ht1]; exact exitPre_chan t cur j hj
      rcases wakeup1_sleeping_cases ch t1 j hj1 with h2 | h2
      · right
        constructor
        · rw [ht2, h2, hs1]
          exact hsj
        · rw [ht2, getP_wakeup1_chan _ _ _ hj1, hc1]
          exact hcj
      · left
        rw [ht2]
        exact h2
  -- the caller ends ZOMBIE
  · rw [hbody, getP_set_self _ _ _ (by rw [hl3]; exact hlen)]

/-- Table data for the C7 witness: the reaper (slot 0) is sleeping in
`wait()` on its own slot address, slot 1 is the running caller, slot 2
is a zombie child of slot 1. -/
def c7t : List Proc :=
  [{ (default : Proc) with
      state := ProcState.SLEEPING, pid := 1, chan := some (Chan.procAddr 0) },
   { (default : Proc) with state := ProcState.RUNNING, pid := 2 },
   { (default : Proc) with
      state := ProcState.ZOMBIE, pid := 3, parent := some 1 }]

/-- Witness for C7: exiting from slot 1 of `c7t` switches away leaving
the zombie child reparented to slot 0, the sleeping reaper woken, and
the caller a zombie. -/
theorem C7_exit_reparent_and_zombie_witness :
    exitRun c7t 1 0 = ExitRes.switchedAway (exitBody c7t 1 0) ∧
    (getP (exitBody c7t 1 0) 2).parent = some 0 ∧
    (getP (exitBody c7t 1 0) 0).state = ProcState.RUNNABLE ∧
    (getP (exitBody c7t 1 0) 1).state = ProcState.ZOMBIE := by
  obtain ⟨t', heq, _, hpar, hwake, hzomb⟩ :=
    C7_exit_reparent_and_zombie c7t 1 0 (by decide) (by decide) (by decide)
  have hrfl : exitRun c7t 1 0 = ExitRes.switchedAway (exitBody c7t 1 0) := by
    rw [exitRun, if_neg (by decide)]
  rw [hrfl] at heq
  have hb := ExitRes.switchedAway.inj heq
  subst hb
  exact ⟨hrfl, hpar 2 (by decide) (by decide),
    hwake ⟨2, by decide, by decide, by decide⟩ 0 (by decide) (by decide) (by decide),
    hzomb⟩

/-! ## C8: unrecognized traps -/

/-- **C8.** For every trap whose identifier is not the system-call,
timer, device, or spurious identifier: with no process context or a
kernel-mode code selector, `trap` panics; from user privilege the
dispatch switch only sets the offending process's `killed` flag (its
outcome is `ok`, not a termination), and `trap` then terminates the
process at the first post-dispatch checkpoint, which fires because the
trap came from user privilege. -/
theorem C8_trap_unrecognized (trapno cs : Nat) (pr : Option Proc)
    (cpu ticks : Nat) (sk ky : Bool)
    (hur : recognizedTrap trapno = false) :
    ((pr = none ∨ cs &&& 3 = 0) →
      trap trapno cs pr cpu ticks sk ky = TrapRes.panicked) ∧
    (∀ p, pr = some p → cs &&& 3 = DPL_USER →
      trapSwitch trapno cs pr cpu ticks =
        DispatchRes.ok (some { p with killed := true }) ticks ∧
      trap trapno cs pr cpu ticks sk ky = TrapRes.exitedAtCk 1) := by
  simp only [recognizedTrap, Bool.or_eq_false_iff, decide_eq_false_iff_not] at hur
  obtain ⟨⟨⟨⟨⟨⟨⟨h64, h32⟩, h46⟩, h47⟩, h33⟩, h36⟩, h39⟩, h63⟩ := hur
  have hsw : trapSwitch trapno cs pr cpu ticks =
      (match pr with
       | none => DispatchRes.panicked
       | some p =>
         if cs &&& 3 = 0 then DispatchRes.panicked
         else DispatchRes.ok (some { p with killed := true }) ticks) := by
    unfold trapSwitch
    rw [if_neg h32, if_neg h46, if_neg h47, if_neg h33, if_neg h36, if_neg h39,
      if_neg h63]
  constructor
  · intro h
    unfold trap
    rw [if_neg h64, hsw]
    rcases h with rfl | hcs
    · rfl
    · cases pr with
      | none => rfl
      | some p => simp [hcs]
  · intro p hpr hcs
    subst hpr
    have hcs0 : ¬(cs &&& 3 = 0) := by
      rw [hcs]
      decide
    constructor
    · rw [hsw]
      simp [hcs0]
    · unfold trap
      rw [if_neg h64, hsw]
      simp [hcs0, hcs, DPL_USER]

/-- Witness for C8: a general-protection fault (identifier 13) panics
when taken with kernel code selector 8, and kills-then-exits at the
first checkpoint when taken from user code selector 27 (ring 3). -/
theorem C8_trap_unrecognized_witness :
    trap 13 8 none 0 0 false false = TrapRes.panicked ∧
    trap 13 27 (some (default : Proc)) 0 0 false false = TrapRes.exitedAtCk 1 := by
  constructor
  · exact (C8_trap_unrecognized 13 8 none 0 0 false false (by decide)).1 (Or.inl rfl)
  · exact ((C8_trap_unrecognized 13 27 (some (default : Proc)) 0 0 false false
      (by decide)).2 (default : Proc) rfl (by decide)).2

end Xv6
